import Mathlib

set_option autoImplicit false

/-!
A shallow embedding of the moviepicker server (`src/server.js`): an in-memory
session store keyed by short codes, with handlers for code generation, joining,
preference saving, movie fetching, rating, and recommendation.

Modelling conventions:
* JS objects used as finite maps (`sessions`, `ratings`) are association lists.
* JS numbers that the server stores or compares are modelled as `Int`
  (movie ids, ratings, release years); the recommendation score, which the
  server computes with real division (`(ratingA + ratingB) / 2`), is a `ℚ`.
* A missing JS property is `none`; `Infinity` in the year computation is also
  encoded as `none` (see `minInf`).
* Request bodies are modelled post-parsing: the `releaseYear` field of the
  preferences request arrives as a string and is truthy exactly when it is
  nonempty, so it is modelled as `Option Int` (`none` for an absent or empty
  field, `some y` for a nonempty numeral parsing to `y`).
-/

namespace MoviePicker

/-- A movie record from the catalog provider; the server only ever reads the
`id` field (`movie.id`), the rest of the record is carried along opaquely,
represented here by its `title`. -/
structure Movie where
  id : Int
  title : String
  deriving DecidableEq, Repr

/-- The `ratings` object of a participant (`session[user].ratings`): a finite
map from movie id to the stored rating, modelled as an association list.
The server performs no bounds validation on ratings, so the value is an
arbitrary `Int`. -/
abbrev Ratings := List (Int × Int)

/-- Property read `ratings[movieId]`: `some` exactly when the key is present
(`hasOwnProperty`). -/
def Ratings.find (r : Ratings) (k : Int) : Option Int :=
  List.lookup k r

/-- Property write `ratings[movieId] = rating`: updates the binding in place,
creating it if absent (server.js line 144). -/
def Ratings.setKey : Ratings → Int → Int → Ratings
  | [], k, v => [(k, v)]
  | (k0, v0) :: r, k, v =>
      if k0 = k then (k, v) :: r else (k0, v0) :: Ratings.setKey r k v

/-- One participant slot: `{ genres: [...], ratings: {...}, releaseYear? }`
(server.js lines 14-16 and 38-39). -/
structure Participant where
  genres : List String
  ratings : Ratings
  releaseYear : Option Int
  deriving DecidableEq, Repr

/-- One session record (server.js lines 13-21 and 37-43). -/
structure Session where
  userA : Participant
  userB : Participant
  isUserAJoined : Bool
  isUserBJoined : Bool
  movieList : List Movie
  deriving DecidableEq, Repr

/-- The participant object installed by `GET /api/generateCode`:
`{ genres: [], ratings: {} }`, with no `releaseYear` property. -/
def newParticipant : Participant :=
  { genres := [], ratings := [], releaseYear := none }

/-- The fresh session object installed by `GET /api/generateCode`
(server.js lines 37-43). -/
def newSession : Session :=
  { userA := newParticipant, userB := newParticipant,
    isUserAJoined := false, isUserBJoined := false, movieList := [] }

/-- The helper `generateSessionCode` (server.js lines 24-27), modelled as a function of
the fractional base-36 digits of the `Math.random()` draw:
`Math.random().toString(36)` renders `"0."` followed by those digits (trailing
zero digits omitted), `substring(2, 8)` keeps at most the first six of them,
and `toUpperCase` uppercases the result. -/
def generateSessionCode (digits : List Char) : String :=
  String.mk ((digits.take 6).map Char.toUpper)

/-- The base-36 digit alphabet used by JS `Number.prototype.toString(36)`. -/
def base36Digits : List Char :=
  "0123456789abcdefghijklmnopqrstuvwxyz".toList

/-- The session-level effect of a join (the mutation performed by
server.js lines 58-63, with no change once the session is full). -/
def joinStep (s : Session) : Session :=
  if !s.isUserAJoined then { s with isUserAJoined := true }
  else if !s.isUserBJoined then { s with isUserBJoined := true }
  else s

/-- The property names every plain JS object inherits from `Object.prototype`
in a standard runtime: reading one of these on a session object resolves
through the prototype chain to a function (or, for `__proto__`, to the
prototype object itself), and is therefore truthy. -/
def objectPrototypeMembers : List String :=
  ["constructor", "hasOwnProperty", "isPrototypeOf", "propertyIsEnumerable",
   "toLocaleString", "toString", "valueOf", "__proto__",
   "__defineGetter__", "__defineSetter__", "__lookupGetter__", "__lookupSetter__"]

/-- JS truthiness of the property read `session[user]` (server.js lines 75 and
140): the two participant objects and the `movieList` array are always truthy;
the join flags are truthy exactly when `true`; a member inherited from
`Object.prototype` (such as `toString`) resolves through the prototype chain
to a function or object, hence is truthy; any other name is an absent
property, read as `undefined`, hence falsy. -/
def slotTruthy (s : Session) (user : String) : Bool :=
  if user = "userA" then true
  else if user = "userB" then true
  else if user = "isUserAJoined" then s.isUserAJoined
  else if user = "isUserBJoined" then s.isUserBJoined
  else if user = "movieList" then true
  else if user ∈ objectPrototypeMembers then true
  else false

/-- Outcome of `POST /api/session/:code/preferences` for a session that exists
(server.js lines 70-84). -/
inductive PrefOutcome where
  | invalid
  | updated (s : Session)
  deriving DecidableEq, Repr

/-- The preferences handler body (server.js lines 75-83): rejects when
`session[user]` is falsy; otherwise assigns `session[user].genres = genres`
and, when the `releaseYear` field is truthy, `session[user].releaseYear`.
When `user` names a truthy non-participant value (the `movieList` array, a
join flag that is `true`, or an inherited `Object.prototype` member), the JS
assignments write onto that value (an expando property on the array or the
inherited function/prototype object, or a silently discarded write on a
boolean primitive); no field of the session record that the server ever reads
changes, so the modelled state is unchanged, and the handler still reports
success. -/
def setPrefs (s : Session) (user : String) (genres : List String)
    (releaseYear : Option Int) : PrefOutcome :=
  if !slotTruthy s user then .invalid
  else if user = "userA" then
    .updated { s with userA :=
      { s.userA with genres := genres,
                     releaseYear := match releaseYear with
                       | some y => some y
                       | none => s.userA.releaseYear } }
  else if user = "userB" then
    .updated { s with userB :=
      { s.userB with genres := genres,
                     releaseYear := match releaseYear with
                       | some y => some y
                       | none => s.userB.releaseYear } }
  else
    .updated s

/-- Outcome of `POST /api/session/:code/rate` for a session that exists
(server.js lines 135-146). `thrown` records the uncaught `TypeError` raised by
`session[user].ratings[movieId] = rating` when `session[user]` is truthy but
not a participant object (its `.ratings` is `undefined`), which Express
surfaces as a 500 server error. -/
inductive RateOutcome where
  | invalid
  | saved (s : Session)
  | thrown
  deriving DecidableEq, Repr

/-- The rate handler body (server.js lines 140-145). -/
def rateHandler (s : Session) (user : String) (movieId rating : Int) :
    RateOutcome :=
  if !slotTruthy s user then .invalid
  else if user = "userA" then
    .saved { s with userA :=
      { s.userA with ratings := Ratings.setKey s.userA.ratings movieId rating } }
  else if user = "userB" then
    .saved { s with userB :=
      { s.userB with ratings := Ratings.setKey s.userB.ratings movieId rating } }
  else
    .thrown

/-- JS `new Set` insertion: appends the element unless already present,
preserving first-occurrence order. -/
def jsSetInsert (l : List String) (x : String) : List String :=
  if x ∈ l then l else l ++ [x]

/-- The union `new Set([...userA.genres, ...userB.genres])` (server.js line
95), as the insertion-ordered deduplicated list of both genre lists. -/
def genreUnion (a b : List String) : List String :=
  (a ++ b).foldl jsSetInsert []

/-- JS `session[user].releaseYear || Infinity` (server.js lines 100-101):
`none` encodes both a missing property and `Infinity`; a stored year of `0` is
falsy in JS and therefore also yields `Infinity`. -/
def jsOrInfinity : Option Int → Option Int
  | none => none
  | some y => if y = 0 then none else some y

/-- The minimum `Math.min` on the `Infinity`-extended integers, with `none` as
`Infinity` (server.js line 102). -/
def minInf : Option Int → Option Int → Option Int
  | none, b => b
  | some a, none => some a
  | some a, some b => some (min a b)

/-- The query parameters the movies handler sends to the catalog provider
(server.js lines 105-117): `primary_release_date_lte = some y` stands for the
`primary_release_date.lte = "y-12-31"` parameter, `none` for its absence. -/
structure DiscoverParams where
  with_genres : List String
  sort_by : String
  page : Nat
  primary_release_date_lte : Option Int
  deriving DecidableEq, Repr

/-- The parameter computation of `GET /api/session/:code/movies`
(server.js lines 95-117). -/
def discoverParams (s : Session) : DiscoverParams :=
  let allGenres := genreUnion s.userA.genres s.userB.genres
  let releaseYearA := jsOrInfinity s.userA.releaseYear
  let releaseYearB := jsOrInfinity s.userB.releaseYear
  let finalYear := minInf releaseYearA releaseYearB
  { with_genres := allGenres, sort_by := "popularity.desc", page := 1,
    primary_release_date_lte := finalYear }

/-- The successful tail of `GET /api/session/:code/movies`
(server.js lines 125-126): given the provider's result list, stores its first
12 entries as the session's movie list and returns them. -/
def fetchMovies (s : Session) (results : List Movie) : Session × List Movie :=
  let newList := results.take 12
  ({ s with movieList := newList }, newList)

/-- The per-movie score of the recommendation loop (server.js lines 174-177):
`(ratingA || 0) + (ratingB || 0)` halved, with real division. (A stored
rating of `0` is falsy in JS, but `0 || 0 = 0`, so `getD 0` is faithful.) -/
def Session.score (s : Session) (m : Movie) : ℚ :=
  (((Ratings.find s.userA.ratings m.id).getD 0
      + (Ratings.find s.userB.ratings m.id).getD 0 : Int) : ℚ) / 2

/-- The completeness check
`movieList.every(movie => session[user].ratings.hasOwnProperty(movie.id))`
(server.js lines 160-165). -/
def allRatedBy (p : Participant) (l : List Movie) : Bool :=
  l.all fun m => (Ratings.find p.ratings m.id).isSome

/-- One iteration of the best-movie loop (server.js lines 173-182), over the
accumulator `(bestMovie, bestScore)`. -/
def recStep (s : Session) (acc : Option Movie × ℚ) (movie : Movie) :
    Option Movie × ℚ :=
  let combinedScore := s.score movie
  if acc.2 < combinedScore then (some movie, combinedScore) else acc

/-- The best-movie loop (server.js lines 171-182), started from
`bestMovie = null`, `bestScore = -1`. -/
def recommendMovie (s : Session) : Option Movie :=
  (s.movieList.foldl (recStep s) (none, -1)).1

/-- Outcome of `GET /api/session/:code/recommendation` for a session that
exists (server.js lines 149-189): `incomplete` is the 400 response of line
168, `noRecommendation` the 200 fallback response of line 187. -/
inductive RecOutcome where
  | incomplete
  | recommended (m : Movie)
  | noRecommendation
  deriving DecidableEq, Repr

/-- The recommendation handler body (server.js lines 157-188). -/
def recommendationHandler (s : Session) : RecOutcome :=
  let allMoviesRatedByUserA := allRatedBy s.userA s.movieList
  let allMoviesRatedByUserB := allRatedBy s.userB s.movieList
  if !allMoviesRatedByUserA || !allMoviesRatedByUserB then
    .incomplete
  else
    match recommendMovie s with
    | some bestMovie => .recommended bestMovie
    | none => .noRecommendation

/-- Spec-side selection: the first movie of the list whose score is greatest
over the whole list (so ties keep the earlier-listed movie). -/
def specPick (s : Session) (l : List Movie) : Option Movie :=
  l.find? fun m => l.all fun m1 => decide (s.score m1 ≤ s.score m)

/-- Spec-side definition, following the amended wording of the cutoff rule:
the effective release-year bound is the minimum of those participant cutoffs
that are present and non-zero, and `none` (no bound) when there is no such
cutoff. To be compared against the bound `discoverParams` computes. -/
def specCutoff (a b : Option Int) : Option Int :=
  match (match a with | some y => if y = 0 then none else some y | none => none),
        (match b with | some y => if y = 0 then none else some y | none => none) with
  | none, cb => cb
  | some ya, none => some ya
  | some ya, some yb => some (min ya yb)

/-- The session mutations a request can perform, for stating store-lifetime
invariants: joining, saving preferences, rating, and a successful movie fetch
carrying the provider's result list. -/
inductive Op where
  | join
  | prefs (user : String) (genres : List String) (releaseYear : Option Int)
  | rate (user : String) (movieId rating : Int)
  | fetch (results : List Movie)

/-- The effect of one request on one session's state (the handlers above,
keeping the previous state on rejected or thrown requests). -/
def applyOp (s : Session) : Op → Session
  | .join => joinStep s
  | .prefs user genres releaseYear =>
      match setPrefs s user genres releaseYear with
      | .updated s1 => s1
      | .invalid => s
  | .rate user movieId rating =>
      match rateHandler s user movieId rating with
      | .saved s1 => s1
      | _ => s
  | .fetch results => (fetchMovies s results).1

/-! ## Helper lemmas -/

/-- C4: for a session with an empty movie list the recommendation handler
returns the no-recommendation success response, not an error: the completeness
check passes vacuously and the loop leaves bestMovie at null. -/
theorem recommendation_empty_list (s : Session) (h : s.movieList = []) :
    recommendationHandler s = .noRecommendation := by
  simp [recommendationHandler, allRatedBy, recommendMovie, h]

theorem recommendation_empty_list_witness :
    recommendationHandler newSession = .noRecommendation :=
  recommendation_empty_list newSession rfl

/-! ## C7: session code generation -/

/-- C7 (code bug): the Math.random draw 0.5 renders in base 36 as the single
fractional digit i (0.5 written in base 36 is 0.i), so generateSessionCode
returns the 1-character code I, not a code of exactly 6 characters. -/
theorem generateSessionCode_short_code :
    (∀ c ∈ ['i'], c ∈ base36Digits) ∧
    generateSessionCode ['i'] = "I" ∧
    (generateSessionCode ['i']).length = 1 := by
  refine ⟨by decide, by decide, by decide⟩

/-! ## C8: preference saves replace, cutoff updates only when supplied -/

/-- C8: saving preferences for userA or userB replaces that slot's genre list
with the supplied one (no merging), leaves its ratings alone, stores the
supplied cutoff when one is supplied, and keeps the previous cutoff when the
cutoff is omitted; no other part of the session changes. -/
theorem setPrefs_replaces (s : Session) (genres : List String) (ry : Option Int) :
    (∃ pA, setPrefs s "userA" genres ry = .updated { s with userA := pA } ∧
       pA.genres = genres ∧ pA.ratings = s.userA.ratings ∧
       (∀ y, ry = some y → pA.releaseYear = some y) ∧
       (ry = none → pA.releaseYear = s.userA.releaseYear)) ∧
    (∃ pB, setPrefs s "userB" genres ry = .updated { s with userB := pB } ∧
       pB.genres = genres ∧ pB.ratings = s.userB.ratings ∧
       (∀ y, ry = some y → pB.releaseYear = some y) ∧
       (ry = none → pB.releaseYear = s.userB.releaseYear)) := by
  constructor
  · refine ⟨{ s.userA with
              genres := genres
              releaseYear := (match ry with
                | some y => some y
                | none => s.userA.releaseYear) },
            ?_, rfl, rfl, ?_, ?_⟩
    · rfl
    · intro y hy
      subst hy
      rfl
    · intro hy
      subst hy
      rfl
  · refine ⟨{ s.userB with
              genres := genres
              releaseYear := (match ry with
                | some y => some y
                | none => s.userB.releaseYear) },
            ?_, rfl, rfl, ?_, ?_⟩
    · rfl
    · intro y hy
      subst hy
      rfl
    · intro hy
      subst hy
      rfl

/-! ## C9: slot validation -/

lemma mem_jsSetInsert (acc : List String) (x a : String) :
    a ∈ jsSetInsert acc x ↔ a ∈ acc ∨ a = x := by
  unfold jsSetInsert
  split
  · rename_i hx
    constructor
    · exact Or.inl
    · rintro (h | rfl)
      · exact h
      · exact hx
  · simp

lemma nodup_jsSetInsert (acc : List String) (x : String) (h : acc.Nodup) :
    (jsSetInsert acc x).Nodup := by
  unfold jsSetInsert
  split
  · exact h
  · rename_i hx
    simp [List.nodup_append, h, hx]

lemma mem_foldl_jsSetInsert (l : List String) :
    ∀ (acc : List String) (a : String),
      a ∈ l.foldl jsSetInsert acc ↔ a ∈ acc ∨ a ∈ l := by
  induction l with
  | nil => intro acc a; simp
  | cons x l ih =>
      intro acc a
      rw [List.foldl_cons, ih, mem_jsSetInsert]
      simp [or_assoc]

lemma nodup_foldl_jsSetInsert (l : List String) :
    ∀ acc : List String, acc.Nodup → (l.foldl jsSetInsert acc).Nodup := by
  induction l with
  | nil => intro acc h; exact h
  | cons x l ih => intro acc h; exact ih _ (nodup_jsSetInsert acc x h)

/-- C5 counterexample: with userA's stored cutoff 0 (reachable by submitting
the string "0", which is truthy) and userB's missing, the claim's formula
min(0, +infinity) = 0 demands a release-date bound of 0, but the handler
sends no bound at all: the stored 0 is falsy in JS, so it is replaced by
Infinity before the minimum is taken. -/
theorem discover_params_counterexample :
    (discoverParams
        { newSession with userA := { newParticipant with releaseYear := some 0 } }
      ).primary_release_date_lte = none ∧
    minInf
        ({ newSession with
            userA := { newParticipant with releaseYear := some 0 } : Session }
          ).userA.releaseYear
        ({ newSession with
            userA := { newParticipant with releaseYear := some 0 } : Session }
          ).userB.releaseYear = some 0 ∧
    (none : Option Int) ≠ some 0 :=
  ⟨rfl, rfl, by decide⟩

/-- C5 (amended): the fetch-candidates handler requests exactly the
deduplicated union of the two participants' genre sets (membership-wise, with
no duplicate entries), and a release-date bound equal to the minimum of the
participants' cutoffs where a missing or zero cutoff counts as +infinity
(no bound is sent when each cutoff is missing or zero). -/
theorem discover_params_spec (s : Session) :
    (∀ g, g ∈ (discoverParams s).with_genres ↔
        g ∈ s.userA.genres ∨ g ∈ s.userB.genres) ∧
    (discoverParams s).with_genres.Nodup ∧
    (discoverParams s).primary_release_date_lte =
      specCutoff s.userA.releaseYear s.userB.releaseYear := by
  refine ⟨?_, ?_, ?_⟩
  · intro g
    show g ∈ genreUnion s.userA.genres s.userB.genres ↔ _
    unfold genreUnion
    rw [mem_foldl_jsSetInsert]
    simp
  · show (genreUnion s.userA.genres s.userB.genres).Nodup
    exact nodup_foldl_jsSetInsert _ _ List.nodup_nil
  · show minInf (jsOrInfinity s.userA.releaseYear) (jsOrInfinity s.userB.releaseYear) = _
    unfold specCutoff jsOrInfinity minInf
    cases s.userA.releaseYear with
    | none =>
        cases s.userB.releaseYear with
        | none => rfl
        | some yb => by_cases hb : yb = 0 <;> simp [hb]
    | some ya =>
        cases s.userB.releaseYear with
        | none => by_cases ha : ya = 0 <;> simp [ha]
        | some yb =>
            by_cases ha : ya = 0 <;> by_cases hb : yb = 0 <;> simp [ha, hb]

/-! ## C6: the movie list stays within 12 entries -/

lemma movieList_setPrefs (s : Session) (user : String) (genres : List String)
    (ry : Option Int) (s1 : Session) (h : setPrefs s user genres ry = .updated s1) :
    s1.movieList = s.movieList := by
  unfold setPrefs at h
  split at h
  · exact PrefOutcome.noConfusion h
  · split at h
    · injection h with h2
      subst h2
      rfl
    · split at h
      · injection h with h2
        subst h2
        rfl
      · injection h with h2
        subst h2
        rfl

lemma movieList_rate (s : Session) (user : String) (movieId rating : Int)
    (s1 : Session) (h : rateHandler s user movieId rating = .saved s1) :
    s1.movieList = s.movieList := by
  unfold rateHandler at h
  split at h
  · exact RateOutcome.noConfusion h
  · split at h
    · injection h with h2
      subst h2
      rfl
    · split at h
      · injection h with h2
        subst h2
        rfl
      · exact RateOutcome.noConfusion h

lemma movieList_applyOp_length (s : Session) (op : Op)
    (h : s.movieList.length ≤ 12) : ((applyOp s op).movieList).length ≤ 12 := by
  cases op with
  | join =>
      have he : (applyOp s Op.join).movieList = s.movieList := by
        show (joinStep s).movieList = s.movieList
        unfold joinStep
        split
        · rfl
        · split <;> rfl
      rw [he]
      exact h
  | prefs user genres ry =>
      show ((match setPrefs s user genres ry with
              | .updated s1 => s1
              | .invalid => s).movieList).length ≤ 12
      cases h2 : setPrefs s user genres ry with
      | invalid => exact h
      | updated s1 =>
          show s1.movieList.length ≤ 12
          rw [movieList_setPrefs s user genres ry s1 h2]
          exact h
  | rate user movieId rating =>
      show ((match rateHandler s user movieId rating with
              | .saved s1 => s1
              | _ => s).movieList).length ≤ 12
      cases h2 : rateHandler s user movieId rating with
      | invalid => exact h
      | thrown => exact h
      | saved s1 =>
          show s1.movieList.length ≤ 12
          rw [movieList_rate s user movieId rating s1 h2]
          exact h
  | fetch results =>
      show (List.take 12 results).length ≤ 12
      rw [List.length_take]
      exact min_le_left _ _

lemma movieList_foldl_length (ops : List Op) :
    ∀ s : Session, s.movieList.length ≤ 12 →
      ((ops.foldl applyOp s).movieList).length ≤ 12 := by
  induction ops with
  | nil => intro s h; exact h
  | cons op ops ih => intro s h; exact ih _ (movieList_applyOp_length s op h)

/-- C6: a successful fetch stores exactly the first 12 (or fewer) movies of
the provider's response, in the provider's order, as the session's movie list,
replacing the previous list and returning it; and after any sequence of
operations starting from a fresh session the movie list holds at most 12
entries. -/
theorem movie_list_bounded :
    (∀ (s : Session) (results : List Movie),
        (fetchMovies s results).1.movieList = results.take 12 ∧
        (fetchMovies s results).2 = results.take 12) ∧
    (∀ ops : List Op, ((ops.foldl applyOp newSession).movieList).length ≤ 12) :=
  ⟨fun _ _ => ⟨rfl, rfl⟩,
   fun ops => movieList_foldl_length ops newSession (by decide)⟩

/-! ## The recommendation loop: helper lemmas -/

lemma foldl_recStep_stay (s : Session) :
    ∀ (l : List Movie) (om : Option Movie) (b : ℚ),
      (∀ m ∈ l, s.score m ≤ b) → l.foldl (recStep s) (om, b) = (om, b)
  | [], _, _, _ => rfl
  | m :: l, om, b, h => by
      rw [List.foldl_cons]
      have hm : recStep s (om, b) m = (om, b) := by
        show (if b < s.score m then (some m, s.score m) else (om, b)) = (om, b)
        exact if_neg (not_lt.mpr (h m (List.mem_cons_self m l)))
      rw [hm]
      exact foldl_recStep_stay s l om b
        (fun m1 hm1 => h m1 (List.mem_cons_of_mem m hm1))

lemma foldl_recStep_max (s : Session) (l : List Movie) :
    ∀ (om : Option Movie) (b M : ℚ),
      (∀ m ∈ l, s.score m ≤ M) → (∃ m ∈ l, s.score m = M) → b < M →
      (l.foldl (recStep s) (om, b)).1 =
        l.find? fun m => decide (s.score m = M) := by
  induction l with
  | nil =>
      intro om b M _ hmem _
      exact absurd hmem (by simp)
  | cons m l ih =>
      intro om b M hub hmem hb
      rw [List.foldl_cons]
      by_cases hm : s.score m = M
      · have hstep : recStep s (om, b) m = (some m, s.score m) := by
          show (if b < s.score m then (some m, s.score m) else (om, b)) = _
          rw [if_pos (hm ▸ hb)]
        rw [hstep,
          foldl_recStep_stay s l (some m) (s.score m)
            (fun m1 hm1 => hm ▸ hub m1 (List.mem_cons_of_mem m hm1)),
          List.find?_cons_of_pos _ (by simp [hm])]
      · have hmem1 : ∃ m1 ∈ l, s.score m1 = M := by
          rcases hmem with ⟨m1, hm1, he⟩
          rcases List.mem_cons.mp hm1 with rfl | hmem2
          · exact absurd he hm
          · exact ⟨m1, hmem2, he⟩
        have hub1 : ∀ m1 ∈ l, s.score m1 ≤ M :=
          fun m1 hm1 => hub m1 (List.mem_cons_of_mem m hm1)
        have hlt : s.score m < M :=
          lt_of_le_of_ne (hub m (List.mem_cons_self m l)) hm
        rw [List.find?_cons_of_neg _ (by simp [hm])]
        by_cases hbm : b < s.score m
        · have hstep : recStep s (om, b) m = (some m, s.score m) := by
            show (if b < s.score m then (some m, s.score m) else (om, b)) = _
            rw [if_pos hbm]
          rw [hstep]
          exact ih (some m) (s.score m) M hub1 hmem1 hlt
        · have hstep : recStep s (om, b) m = (om, b) := by
            show (if b < s.score m then (some m, s.score m) else (om, b)) = _
            rw [if_neg hbm]
          rw [hstep]
          exact ih om b M hub1 hmem1 hb

lemma exists_score_max (s : Session) :
    ∀ l : List Movie, l ≠ [] → ∃ m ∈ l, ∀ m1 ∈ l, s.score m1 ≤ s.score m
  | [], h => absurd rfl h
  | m :: l, _ => by
      rcases eq_or_ne l [] with rfl | hne
      · exact ⟨m, List.mem_cons_self m [], by simp⟩
      · rcases exists_score_max s l hne with ⟨m0, hm0, hmax⟩
        rcases le_total (s.score m0) (s.score m) with hle | hle
        · refine ⟨m, List.mem_cons_self m l, ?_⟩
          intro m1 hm1
          rcases List.mem_cons.mp hm1 with rfl | hm1
          · exact le_refl _
          · exact le_trans (hmax m1 hm1) hle
        · refine ⟨m0, List.mem_cons_of_mem m hm0, ?_⟩
          intro m1 hm1
          rcases List.mem_cons.mp hm1 with rfl | hm1
          · exact hle
          · exact hmax m1 hm1

lemma find_members_congr {α : Type} (p q : α → Bool) :
    ∀ l : List α, (∀ a ∈ l, p a = q a) → l.find? p = l.find? q
  | [], _ => rfl
  | a :: l, h => by
      have ha := h a (List.mem_cons_self a l)
      cases hq : q a with
      | true =>
          rw [List.find?_cons_of_pos _ (ha.trans hq),
            List.find?_cons_of_pos _ hq]
      | false =>
          rw [List.find?_cons_of_neg _ (by simp [ha, hq]),
            List.find?_cons_of_neg _ (by simp [hq])]
          exact find_members_congr p q l
            (fun a1 h1 => h a1 (List.mem_cons_of_mem a h1))

lemma specPick_eq_find_max (s : Session) (l : List Movie) (M : ℚ)
    (hub : ∀ m ∈ l, s.score m ≤ M) (hmem : ∃ m ∈ l, s.score m = M) :
    specPick s l = l.find? fun m => decide (s.score m = M) := by
  unfold specPick
  apply find_members_congr
  intro m hm
  rw [Bool.eq_iff_iff, List.all_eq_true]
  simp only [decide_eq_true_eq]
  constructor
  · intro hall
    rcases hmem with ⟨m0, hm0, he⟩
    exact le_antisymm (hub m hm) (he ▸ hall m0 hm0)
  · intro he m1 hm1
    exact he ▸ hub m1 hm1

lemma recommendMovie_spec (s : Session)
    (hpos : ∃ m ∈ s.movieList, (-1 : ℚ) < s.score m) :
    ∃ m, specPick s s.movieList = some m ∧ recommendMovie s = some m := by
  have hne : s.movieList ≠ [] := by
    rcases hpos with ⟨m, hm, _⟩
    exact List.ne_nil_of_mem hm
  rcases exists_score_max s s.movieList hne with ⟨mx, hmx, hub⟩
  have hmem : ∃ m ∈ s.movieList, s.score m = s.score mx := ⟨mx, hmx, rfl⟩
  have hb : (-1 : ℚ) < s.score mx := by
    rcases hpos with ⟨m0, hm0, hlt⟩
    exact lt_of_lt_of_le hlt (hub m0 hm0)
  have e1 : recommendMovie s =
      s.movieList.find? fun m => decide (s.score m = s.score mx) :=
    foldl_recStep_max s s.movieList none (-1) (s.score mx) hub hmem hb
  have e2 : specPick s s.movieList =
      s.movieList.find? fun m => decide (s.score m = s.score mx) :=
    specPick_eq_find_max s s.movieList (s.score mx) hub hmem
  have hs : (s.movieList.find? fun m => decide (s.score m = s.score mx)).isSome := by
    rw [List.find?_isSome]
    exact ⟨mx, hmx, by simp⟩
  rcases Option.isSome_iff_exists.mp hs with ⟨m, hm⟩
  exact ⟨m, e2.trans hm, e1.trans hm⟩

lemma allRatedBy_eq_false_iff (p : Participant) (l : List Movie) :
    allRatedBy p l = false ↔ ∃ m ∈ l, Ratings.find p.ratings m.id = none := by
  unfold allRatedBy
  rw [List.all_eq_false]
  constructor
  · rintro ⟨m, hm, hns⟩
    exact ⟨m, hm, Option.not_isSome_iff_eq_none.mp (by simpa using hns)⟩
  · rintro ⟨m, hm, hnone⟩
    exact ⟨m, hm, by simp [hnone]⟩

/-! ## C2: the completeness check -/

/-- C2: the recommendation handler answers IncompleteRatings exactly when some
listed movie has no rating key (a missing key, not a zero value) from at least
one of the two participants; otherwise it proceeds past the check. -/
theorem recommendation_incomplete_iff (s : Session) :
    recommendationHandler s = .incomplete ↔
      ∃ m ∈ s.movieList,
        Ratings.find s.userA.ratings m.id = none ∨
        Ratings.find s.userB.ratings m.id = none := by
  unfold recommendationHandler
  by_cases hc :
      (!allRatedBy s.userA s.movieList || !allRatedBy s.userB s.movieList) = true
  · rw [if_pos hc]
    simp only [true_iff]
    rcases Bool.or_eq_true_iff.mp hc with h | h
    · rcases (allRatedBy_eq_false_iff s.userA s.movieList).mp
          (Bool.not_eq_true' .. |>.mp h) with ⟨m, hm, hnone⟩
      exact ⟨m, hm, Or.inl hnone⟩
    · rcases (allRatedBy_eq_false_iff s.userB s.movieList).mp
          (Bool.not_eq_true' .. |>.mp h) with ⟨m, hm, hnone⟩
      exact ⟨m, hm, Or.inr hnone⟩
  · rw [if_neg hc]
    have hmatch :
        (match recommendMovie s with
          | some bestMovie => RecOutcome.recommended bestMovie
          | none => RecOutcome.noRecommendation) ≠ RecOutcome.incomplete := by
      cases recommendMovie s <;> simp
    simp only [Bool.or_eq_true, Bool.not_eq_true'] at hc
    push_neg at hc
    obtain ⟨ha, hb⟩ := hc
    constructor
    · intro h
      exact absurd h hmatch
    · rintro ⟨m, hm, hnone | hnone⟩
      · have := (Bool.ne_false_iff.mp ha)
        rcases (allRatedBy_eq_false_iff s.userA s.movieList).not.mp
            (by simp [this]) ⟨m, hm, hnone⟩
      · have := (Bool.ne_false_iff.mp hb)
        rcases (allRatedBy_eq_false_iff s.userB s.movieList).not.mp
            (by simp [this]) ⟨m, hm, hnone⟩

/-! ## C1: the selected movie is the first maximum -/

/-- A session whose two listed movies tie on score 3: both users rate both
movies 3, so the tie-break behaviour is observable. -/
def tieSession : Session :=
  { newSession with
      userA := { newParticipant with ratings := [(1, 3), (2, 3)] }
      userB := { newParticipant with ratings := [(1, 3), (2, 3)] }
      movieList := [{ id := 1, title := "M1" }, { id := 2, title := "M2" }] }

/-- C1 (amended): for a session whose movie list is non-empty, passes the
completeness check, and has at least one movie scoring above -1 (always the
case when stored ratings are non-negative, e.g. in the documented 1-5 range),
the handler returns the first movie in list order whose score
(ratingA_or_0 + ratingB_or_0)/2 is the maximum over the list; in particular
ties keep the earlier-listed movie. When every score is at or below -1 —
reachable only through negative stored ratings — the handler instead returns
the no-recommendation fallback (see the counterexample). -/
theorem recommendation_first_max (s : Session)
    (hA : allRatedBy s.userA s.movieList = true)
    (hB : allRatedBy s.userB s.movieList = true)
    (hpos : ∃ m ∈ s.movieList, (-1 : ℚ) < s.score m) :
    ∃ m, specPick s s.movieList = some m ∧
      recommendationHandler s = .recommended m := by
  rcases recommendMovie_spec s hpos with ⟨m, h1, h2⟩
  refine ⟨m, h1, ?_⟩
  simp [recommendationHandler, hA, hB, h2]

theorem recommendation_first_max_witness :
    ∃ m, specPick tieSession tieSession.movieList = some m ∧
      recommendationHandler tieSession = .recommended m :=
  recommendation_first_max tieSession (by decide) (by decide)
    ⟨{ id := 1, title := "M1" }, by decide, by
      have h : tieSession.score { id := 1, title := "M1" } =
          ((6 : Int) : ℚ) / 2 := rfl
      rw [h]
      norm_num⟩

/-- A complete, non-empty session whose single movie both users rated -3
(the rate endpoint performs no bounds validation). -/
def negSession : Session :=
  { newSession with
      userA := { newParticipant with ratings := [(1, -3)] }
      userB := { newParticipant with ratings := [(1, -3)] }
      movieList := [{ id := 1, title := "M1" }] }

/-- C1 counterexample: negSession has a non-empty movie list and passes the
completeness check, and its single movie M1 is trivially the first movie of
maximum score, yet the handler returns the no-recommendation fallback instead
of M1: the score (-3 + -3)/2 = -3 never beats the initial bestScore of -1. -/
theorem recommendation_first_max_counterexample :
    allRatedBy negSession.userA negSession.movieList = true ∧
    allRatedBy negSession.userB negSession.movieList = true ∧
    negSession.movieList ≠ [] ∧
    specPick negSession negSession.movieList =
      some { id := 1, title := "M1" } ∧
    recommendationHandler negSession = .noRecommendation := by
  refine ⟨by decide, by decide, by decide, ?_, ?_⟩
  · have hp : (([{ id := 1, title := "M1" }] : List Movie).all fun m1 =>
        decide (negSession.score m1 ≤
          negSession.score { id := 1, title := "M1" })) = true := by
      rw [List.all_eq_true]
      intro m1 hm1
      rw [List.mem_singleton] at hm1
      subst hm1
      simp
    show List.find?
        (fun m => ([{ id := 1, title := "M1" }] : List Movie).all fun m1 =>
          decide (negSession.score m1 ≤ negSession.score m))
        [{ id := 1, title := "M1" }] = some { id := 1, title := "M1" }
    simp [List.find?_singleton, hp]
  · have hscore : negSession.score { id := 1, title := "M1" } =
        ((-6 : Int) : ℚ) / 2 := rfl
    have hneg : ¬ ((-1 : ℚ) < negSession.score { id := 1, title := "M1" }) := by
      rw [hscore]
      norm_num
    have hrm : recommendMovie negSession = none := by
      show ((if ((-1 : ℚ)) < negSession.score { id := 1, title := "M1" }
              then (some ({ id := 1, title := "M1" } : Movie),
                    negSession.score { id := 1, title := "M1" })
              else ((none : Option Movie), (-1 : ℚ)))).1 = none
      rw [if_neg hneg]
    show (match recommendMovie negSession with
           | some bestMovie => RecOutcome.recommended bestMovie
           | none => RecOutcome.noRecommendation) = RecOutcome.noRecommendation
    rw [hrm]

/-! ## C10: reachability of the no-ratings fallback -/

/-- A complete one-movie session with the (in-range) ratings 5 and 1. -/
def nonnegSession : Session :=
  { newSession with
      userA := { newParticipant with ratings := [(1, 5)] }
      userB := { newParticipant with ratings := [(1, 1)] }
      movieList := [{ id := 1, title := "M1" }] }

/-- C10 (amended): for a session whose movie list is non-empty, passes the
completeness check, and whose computed scores are all at least 0 (always the
case when stored ratings are non-negative), the handler returns a movie: every
such score exceeds the initial bestScore of -1, so the fallback branch cannot
be reached. (Negative stored ratings can make every score at most -1, and the
fallback is then reached — see the counterexample.) -/
theorem recommendation_total (s : Session)
    (hA : allRatedBy s.userA s.movieList = true)
    (hB : allRatedBy s.userB s.movieList = true)
    (hne : s.movieList ≠ [])
    (hnn : ∀ m ∈ s.movieList, 0 ≤ s.score m) :
    ∃ m, recommendationHandler s = .recommended m := by
  have hpos : ∃ m ∈ s.movieList, (-1 : ℚ) < s.score m := by
    rcases List.exists_mem_of_ne_nil s.movieList hne with ⟨m, hm⟩
    exact ⟨m, hm, lt_of_lt_of_le (by norm_num) (hnn m hm)⟩
  rcases recommendMovie_spec s hpos with ⟨m, _, h2⟩
  exact ⟨m, by simp [recommendationHandler, hA, hB, h2]⟩

theorem recommendation_total_witness :
    ∃ m, recommendationHandler nonnegSession = .recommended m :=
  recommendation_total nonnegSession (by decide) (by decide) (by decide)
    (by
      intro m hm
      rw [show nonnegSession.movieList = [{ id := 1, title := "M1" }] from rfl,
        List.mem_singleton] at hm
      subst hm
      have h : nonnegSession.score { id := 1, title := "M1" } =
          ((6 : Int) : ℚ) / 2 := rfl
      rw [h]
      norm_num)

/-- A complete one-movie session where both users stored the rating -10. -/
def negTenSession : Session :=
  { newSession with
      userA := { newParticipant with ratings := [(9, -10)] }
      userB := { newParticipant with ratings := [(9, -10)] }
      movieList := [{ id := 9, title := "M9" }] }

/-- C10 counterexample: the fallback branch is reachable. With both stored
ratings -10 on the single listed movie, the session passes the completeness
check and has a non-empty list, yet the handler returns the fallback
no-recommendation response: the score -10 never exceeds the initial bestScore
of -1, so no movie is ever selected, contradicting the claim that the
fallback is unreachable. -/
theorem recommendation_total_counterexample :
    allRatedBy negTenSession.userA negTenSession.movieList = true ∧
    allRatedBy negTenSession.userB negTenSession.movieList = true ∧
    negTenSession.movieList ≠ [] ∧
    recommendationHandler negTenSession = .noRecommendation := by
  refine ⟨by decide, by decide, by decide, ?_⟩
  have hscore : negTenSession.score { id := 9, title := "M9" } =
      ((-20 : Int) : ℚ) / 2 := rfl
  have hneg : ¬ ((-1 : ℚ) < negTenSession.score { id := 9, title := "M9" }) := by
    rw [hscore]
    norm_num
  have hrm : recommendMovie negTenSession = none := by
    show ((if ((-1 : ℚ)) < negTenSession.score { id := 9, title := "M9" }
            then (some ({ id := 9, title := "M9" } : Movie),
                  negTenSession.score { id := 9, title := "M9" })
            else ((none : Option Movie), (-1 : ℚ)))).1 = none
    rw [if_neg hneg]
  show (match recommendMovie negTenSession with
         | some bestMovie => RecOutcome.recommended bestMovie
         | none => RecOutcome.noRecommendation) = RecOutcome.noRecommendation
  rw [hrm]

end MoviePicker
